import Mathlib

/-
Verification of the Objective-C name-handling subsystem
(src/google/protobuf/compiler/objectivec/names.cc).

The C++ functions are shallowly embedded as executable Lean definitions:
std::string becomes String (with the core computations on List Char),
std::map<std::string, std::string> becomes a key-sorted association list,
and the lazily loaded global PrefixModeStorage becomes explicit state
passing, with the outcome of a ParseSimpleFile call supplied as an
explicit parameter (that loader lives in line_consumer.h, outside the
translated file).
-/

namespace ObjCNames

/-! ASCII character helpers, mirroring the absl::ascii_* functions used by
names.cc (ASCII-only semantics). -/

def asciiIsUpper (c : Char) : Bool := 'A' ≤ c && c ≤ 'Z'

def asciiIsLower (c : Char) : Bool := 'a' ≤ c && c ≤ 'z'

def asciiIsDigit (c : Char) : Bool := '0' ≤ c && c ≤ '9'

def asciiToLower (c : Char) : Char :=
  if asciiIsUpper c then Char.ofNat (c.toNat + 32) else c

def asciiToUpper (c : Char) : Char :=
  if asciiIsLower c then Char.ofNat (c.toNat - 32) else c

/-! ## CaseConverter

`UnderscoresToCamelCase` (names.cc lines 264-329).  The first phase scans the
input left to right and collects segments into `values` (uppercase letters are
stored lowercased); the second phase reassembles the segments, fully
uppercasing a segment whose text is in `kUpperSegments`. -/

/-- The fixed acronym set `kUpperSegmentsList` (names.cc line 256). -/
def kUpperSegmentsList : List (List Char) := ["url".data, "http".data, "https".data]

/-- Scanner state of the segmentation loop of `UnderscoresToCamelCase`:
the collected `values`, the segment being built, and the three
last-character-kind flags. -/
structure SegState where
  values : List (List Char)
  current : List Char
  lastNumber : Bool
  lastLower : Bool
  lastUpper : Bool

/-- One iteration of the segmentation loop (names.cc lines 272-302). -/
def segStep (st : SegState) (c : Char) : SegState :=
  if asciiIsDigit c then
    let st := if !st.lastNumber then
        { st with values := st.values ++ [st.current], current := [] }
      else st
    { st with current := st.current ++ [c],
              lastNumber := true, lastLower := false, lastUpper := false }
  else if asciiIsLower c then
    let st := if !st.lastLower && !st.lastUpper then
        { st with values := st.values ++ [st.current], current := [] }
      else st
    { st with current := st.current ++ [c],
              lastNumber := false, lastLower := true, lastUpper := false }
  else if asciiIsUpper c then
    let st := if !st.lastUpper then
        { st with values := st.values ++ [st.current], current := [] }
      else st
    { st with current := st.current ++ [asciiToLower c],
              lastNumber := false, lastLower := false, lastUpper := true }
  else
    { st with lastNumber := false, lastLower := false, lastUpper := false }

/-- The segmentation phase: run the loop and push the trailing `current`
(names.cc lines 266-303). -/
def segmentValues (input : List Char) : List (List Char) :=
  let st := input.foldl segStep ⟨[], [], false, false, false⟩
  st.values ++ [st.current]

/-- Per-segment transformation of the reassembly loop (names.cc lines
314-320): character 0 is uppercased, the rest only when `allUpper`. -/
def upcaseSegment (value : List Char) (allUpper : Bool) : List Char :=
  match value with
  | [] => []
  | c :: rest => asciiToUpper c :: (if allUpper then rest.map asciiToUpper else rest)

/-- State of the reassembly loop: the accumulated result and the
`first_segment_forces_upper` flag. -/
structure ReassembleState where
  result : List Char
  firstSegmentForcesUpper : Bool

/-- One iteration of the reassembly loop (names.cc lines 307-322). -/
def reassembleStep (st : ReassembleState) (value : List Char) : ReassembleState :=
  let allUpper := kUpperSegmentsList.contains value
  let forces := st.firstSegmentForcesUpper || (allUpper && st.result.length == 0)
  { result := st.result ++ upcaseSegment value allUpper,
    firstSegmentForcesUpper := forces }

/-- Lowercase the first character of a list (names.cc line 326). -/
def lowerFirst (l : List Char) : List Char :=
  match l with
  | [] => []
  | c :: rest => asciiToLower c :: rest

/-- The reassembly phase of `UnderscoresToCamelCase` (names.cc lines
305-328), as a function of the segment list. -/
def reassembleValues (values : List (List Char)) (firstCapitalized : Bool) : List Char :=
  let st := values.foldl reassembleStep ⟨[], false⟩
  if !st.result.isEmpty && !firstCapitalized && !st.firstSegmentForcesUpper then
    lowerFirst st.result
  else st.result

/-- Embeds `UnderscoresToCamelCase` on character lists: segmentation followed by
reassembly (names.cc lines 264-329). -/
def underscoresToCamelCaseList (input : List Char) (firstCapitalized : Bool) : List Char :=
  reassembleValues (segmentValues input) firstCapitalized

/-- Embeds `UnderscoresToCamelCase(input, first_capitalized)` (names.cc lines
264-329). -/
def UnderscoresToCamelCase (input : String) (firstCapitalized : Bool) : String :=
  String.mk (underscoresToCamelCaseList input.data firstCapitalized)

/-- String-level wrapper of the reassembly phase, to state how a given
segment list reassembles. -/
def reassembleSegmentsString (values : List String) (firstCapitalized : Bool) : String :=
  String.mk (reassembleValues (values.map String.data) firstCapitalized)

/-! ## IdentifierSanitizer

`SanitizeNameForObjC` (names.cc lines 410-441) together with the reserved
word tables and `IsReservedCIdentifier` (lines 331-408). -/

/-- The table `kReservedWordList` (names.cc lines 331-392), transcribed verbatim;
note the transliterated original contains the entry "extern " with a
trailing space. -/
def kReservedWordList : List String := [
  "id", "_cmd", "super", "in", "out", "inout", "bycopy", "byref", "oneway",
  "self", "instancetype", "nullable", "nonnull", "nil", "Nil",
  "YES", "NO", "weak",
  "and", "and_eq", "alignas", "alignof", "asm", "auto", "bitand", "bitor",
  "bool", "break", "case", "catch", "char", "char16_t", "char32_t", "class",
  "compl", "const", "constexpr", "const_cast", "continue", "decltype",
  "default", "delete", "double", "dynamic_cast", "else", "enum", "explicit",
  "export", "extern ", "false", "float", "for", "friend", "goto", "if",
  "inline", "int", "long", "mutable", "namespace", "new", "noexcept", "not",
  "not_eq", "nullptr", "operator", "or", "or_eq", "private", "protected",
  "public", "register", "reinterpret_cast", "return", "short", "signed",
  "sizeof", "static", "static_assert", "static_cast", "struct", "switch",
  "template", "this", "thread_local", "throw", "true", "try", "typedef",
  "typeid", "typename", "union", "unsigned", "using", "virtual", "void",
  "volatile", "wchar_t", "while", "xor", "xor_eq",
  "restrict",
  "typeof",
  "NULL",
  "stdin", "stdout", "stderr",
  "Category", "Ivar", "Method", "Protocol",
  "clear", "data", "delimitedData", "descriptor", "extensionRegistry",
  "extensionsCurrentlySet", "initialized", "isInitialized", "serializedSize",
  "sortedExtensionsInUse", "unknownFields",
  "Fixed", "Fract", "Size", "LogicalAddress", "PhysicalAddress", "ByteCount",
  "ByteOffset", "Duration", "AbsoluteTime", "OptionBits", "ItemCount",
  "PBVersion", "ScriptCode", "LangCode", "RegionCode", "OSType",
  "ProcessSerialNumber", "Point", "Rect", "FixedPoint", "FixedRect", "Style",
  "StyleParameter", "StyleField", "TimeScale", "TimeBase", "TimeRecord"]

/-- Modelled from the spec: `kNSObjectMethodsList` comes from
nsobject_methods.h, a generated header of this repository that is not among
the translated sources; the spec describes it only as the fixed
inherited-method-name set (NSObject method selectors).  It is modelled here
by the documented NSObject protocol selectors. -/
def kNSObjectMethodsList : List String := [
  "alloc", "autorelease", "autoContentAccessingProxy", "class",
  "classForArchiver", "classForCoder", "classForKeyedArchiver", "copy",
  "dealloc", "debugDescription", "description", "dictionaryWithValuesForKeys",
  "doesNotRecognizeSelector", "finalize", "forwardInvocation", "hash",
  "init", "isProxy", "mutableCopy", "release", "retain", "retainCount",
  "self", "superclass", "zone"]

/-- Embeds `IsReservedCIdentifier(input)` (names.cc lines 399-408): length > 2 and
a leading underscore followed by an uppercase letter or another
underscore. -/
def isReservedCIdentifier (input : List Char) : Bool :=
  if input.length > 2 then
    (input.getD 0 (Char.ofNat 0) == '_') &&
      (asciiIsUpper (input.getD 1 (Char.ofNat 0)) || input.getD 1 (Char.ofNat 0) == '_')
  else false

/-- Step A of `SanitizeNameForObjC` (names.cc lines 424-432): the
prefix-injection decision.  `input.getD pre.length` mirrors
`input[prefix.length()]`; when the lengths are equal the left disjunct
short-circuits exactly as in the C++ (where `input[size()]` is NUL). -/
def sanitizeStepA (pre input : List Char) : List Char :=
  if pre.isPrefixOf input then
    if input.length == pre.length || !asciiIsUpper (input.getD pre.length (Char.ofNat 0)) then
      pre ++ input
    else input
  else pre ++ input

/-- The collision test of `SanitizeNameForObjC` (names.cc lines 433-435):
reserved C identifier shape, the reserved word set, or the NSObject method
set. -/
def isCollisionName (s : List Char) : Bool :=
  isReservedCIdentifier s || kReservedWordList.contains (String.mk s) ||
    kNSObjectMethodsList.contains (String.mk s)

/-- The core of `SanitizeNameForObjC` on character lists (names.cc lines 410-441):
Step A, then the collision check appending `ext` and reporting it. -/
def sanitizeCore (pre input ext : List Char) : List Char × List Char :=
  let sanitized := sanitizeStepA pre input
  if isCollisionName sanitized then (sanitized ++ ext, ext) else (sanitized, [])

/-- Embeds `SanitizeNameForObjC(prefix, input, extension, out_suffix_added)`
(names.cc lines 410-441); the second component is the reported
`out_suffix_added` (cleared when no collision). -/
def SanitizeNameForObjC (pre input ext : String) : String × String :=
  let r := sanitizeCore pre.data input.data ext.data
  (String.mk r.1, String.mk r.2)

/-- String-level wrapper of Step A of `SanitizeNameForObjC`. -/
def sanitizeStepAString (pre input : String) : String :=
  String.mk (sanitizeStepA pre.data input.data)

/-! ## PrefixResolver

`PrefixModeStorage` and `FileClassPrefix` (names.cc lines 92-207 and
554-595).  The global mutable `g_prefix_mode` becomes explicit state
passing; the outcome of each `ParseSimpleFile` call (line_consumer.h,
outside the translated file) is an explicit `Except` parameter: `.ok`
carries the consumed entries or lines, `.error` the parse failure. -/

/-- The fields of a `FileDescriptor` this subsystem reads: `name()`,
`package()`, and the `objc_class_prefix` file option (`none` when
`has_objc_class_prefix()` is false). -/
structure FileDescriptor where
  name : String
  package : String
  objcClassPrefix : Option String

/-- Embeds `absl::StartsWith(s, pre)` on strings. -/
def startsWithStr (s pre : String) : Bool := pre.data.isPrefixOf s.data

/-- Lookup in a `std::map<std::string, std::string>` modelled as an
association list (first matching key). -/
def mapFind (m : List (String × String)) (key : String) : Option String :=
  match m with
  | [] => none
  | (k, v) :: rest => if k == key then some v else mapFind rest key

/-- Byte-wise lexicographic order on character lists, the `std::string`
`operator<` used by `std::map`. -/
def charListLt : List Char → List Char → Bool
  | [], [] => false
  | [], _ :: _ => true
  | _ :: _, [] => false
  | a :: as, b :: bs =>
    if a.toNat < b.toNat then true
    else if b.toNat < a.toNat then false
    else charListLt as bs

/-- Models `std::map` insertion (`m[key] = value`): keep the list sorted by key and
overwrite an existing binding. -/
def mapInsert (m : List (String × String)) (key value : String) : List (String × String) :=
  match m with
  | [] => [(key, value)]
  | (k, v) :: rest =>
    if key == k then (k, value) :: rest
    else if charListLt key.data k.data then (key, value) :: (k, v) :: rest
    else (k, v) :: mapInsert rest key value

/-- Build the `std::map` a `PackageToPrefixesCollector` run leaves behind
from the consumed (package, prefix) lines, in order (later lines win). -/
def buildMap (entries : List (String × String)) : List (String × String) :=
  entries.foldl (fun m e => mapInsert m e.1 e.2) []

/-- The state of the global `PrefixModeStorage g_prefix_mode` (names.cc
lines 92-127), fields in declaration order. -/
structure PrefixModeStorage where
  usePackageName : Bool
  packageToPrefixMap : List (String × String)
  packageToPrefixMappingsPath : String
  exceptionPath : String
  forcedPrefix : String
  exceptions : List String

/-- The load trigger of `prefix_from_proto_package_mappings` (names.cc line
151): the cached map is empty and a mappings path is configured. -/
def mappingsNeedsLoad (st : PrefixModeStorage) : Bool :=
  st.packageToPrefixMap.isEmpty && !(st.packageToPrefixMappingsPath == "")

/-- The load trigger of `is_package_exempted` (names.cc line 185). -/
def exceptionsNeedLoad (st : PrefixModeStorage) : Bool :=
  st.exceptions.isEmpty && !(st.exceptionPath == "")

/-- The lookup key shared by the mappings lookup and the validator (names.cc
lines 168-172 and 893-899): the package, or `"no_package:" + name` for a
packageless file. -/
def fileLookupKey (file : FileDescriptor) : String :=
  if file.package == "" then "no_package:" ++ file.name else file.package

/-- Embeds `PrefixModeStorage::prefix_from_proto_package_mappings(file)` (names.cc
lines 146-182).  `parse` is the outcome of the `ParseSimpleFile` call; on
failure the partially filled map is cleared, and no sentinel is inserted. -/
def prefixFromMappings (parse : Except String (List (String × String)))
    (st : PrefixModeStorage) (file : FileDescriptor) : String × PrefixModeStorage :=
  let st1 :=
    if mappingsNeedsLoad st then
      match parse with
      | .ok entries => { st with packageToPrefixMap := buildMap entries }
      | .error _ => { st with packageToPrefixMap := [] }
    else st
  match mapFind st1.packageToPrefixMap (fileLookupKey file) with
  | some v => (v, st1)
  | none => ("", st1)

/-- Embeds `PrefixModeStorage::is_package_exempted(package)` (names.cc lines
184-207).  After a load that leaves the set empty (failure or an empty
file) the sentinel `"<not a real package>"` is inserted so the file is not
reloaded. -/
def isPackageExempted (parse : Except String (List String))
    (st : PrefixModeStorage) (pkg : String) : Bool × PrefixModeStorage :=
  let st1 :=
    if exceptionsNeedLoad st then
      let exs := match parse with
        | .ok lines => lines
        | .error _ => []
      let exs := if exs.isEmpty then ["<not a real package>"] else exs
      { st with exceptions := exs }
    else st
  (st1.exceptions.contains pkg, st1)

/-- Embeds `absl::StrSplit(pkg, ".", absl::SkipEmpty())` (names.cc line 580):
split on every `.` and drop empty pieces; `cur` is the piece being built. -/
def splitSegs : List Char → List Char → List (List Char)
  | [], cur => if cur.isEmpty then [] else [cur]
  | c :: rest, cur =>
    if c == '.' then (if cur.isEmpty then splitSegs rest [] else cur :: splitSegs rest [])
    else splitSegs rest (cur ++ [c])

/-- The derived package prefix of `FileClassPrefix`, before the forced
literal prefix is prepended (names.cc lines 579-593): camel-case each dot
segment, join the non-empty parts with `_`, and append a trailing `_` when
anything was produced. -/
def packageToPrefixDerived (pkg : String) : String :=
  let segs := splitSegs pkg.data []
  let result := segs.foldl (fun result seg =>
    let part := underscoresToCamelCaseList seg true
    if part.isEmpty then result
    else if result.isEmpty then part else result ++ '_' :: part) ([] : List Char)
  String.mk (if result.isEmpty then result else result ++ ['_'])

/-- Embeds `FileClassPrefix(file)` (names.cc lines 554-595), with the two possible
lazy loads of `g_prefix_mode` made explicit: `mp` and `ep` are the
`ParseSimpleFile` outcomes for the mappings file and the exceptions file;
the returned state is the updated `g_prefix_mode`. -/
def FileClassPrefix (mp : Except String (List (String × String)))
    (ep : Except String (List String)) (st : PrefixModeStorage)
    (file : FileDescriptor) : String × PrefixModeStorage :=
  match file.objcClassPrefix with
  | some v => (v, st)
  | none =>
    let r1 := prefixFromMappings mp st file
    if !(r1.1 == "") then r1
    else if !r1.2.usePackageName then ("", r1.2)
    else
      let r2 := isPackageExempted ep r1.2 file.package
      if r2.1 then ("", r2.2)
      else (r2.2.forcedPrefix ++ packageToPrefixDerived file.package, r2.2)

/-! ## PrefixValidator

`ValidateObjCClassPrefix` and `ValidateObjCClassPrefixes` (names.cc lines
881-1024 and 1053-1092).  A hard error is an `Except.error` carrying the
`out_error` message; the cerr warnings (style nits, lines 984-1000 and
1014-1020) do not influence the returned value and are not modelled. -/

/-- Embeds `absl::StripPrefix(s, "no_package:")` as used at names.cc line 967. -/
def stripNoPackage (s : String) : String :=
  if startsWithStr s "no_package:" then String.mk (s.data.drop ("no_package:".data.length))
  else s

/-- The registry mismatch message (names.cc lines 915-924). -/
def expectedMismatchError (expected pkg name : String) (hasPfx : Bool) (pfx : String) : String :=
  "error: Expected 'option objc_class_prefix = \"" ++ expected ++ "\";'"
    ++ (if pkg == "" then "" else " for package '" ++ pkg ++ "'")
    ++ " in '" ++ name ++ "'"
    ++ (if hasPfx then "; but found '" ++ pfx ++ "' instead" else "")
    ++ "."

/-- The missing required option message (names.cc lines 932-934). -/
def missingRequiredError (name : String) : String :=
  "error: '" ++ name ++ "' does not have a required 'option objc_class_prefix'."

/-- The prefix reuse message (names.cc lines 961-976), naming the declaring
file and the other package (or packageless file) the registry already maps
to the prefix. -/
def collisionError (pfx name other key path : String) : String :=
  "error: Found 'option objc_class_prefix = \"" ++ pfx ++ "\";' in '" ++ name
    ++ "'; that prefix is already used for "
    ++ (if startsWithStr other "no_package:" then
          "file '" ++ stripNoPackage other ++ "'."
        else "'package " ++ other ++ ";'.")
    ++ " It can only be reused by adding '" ++ key ++ " = " ++ pfx
    ++ "' to the expected prefixes file (" ++ path ++ ")."

/-- The unregistered prefix message (names.cc lines 1006-1010). -/
def unregisteredError (name key pfx path : String) : String :=
  "error: '" ++ name ++ "' has 'option objc_class_prefix = \"" ++ pfx
    ++ "\";', but it is not registered. Add '" ++ key ++ " = "
    ++ (if pfx == "" then "\"\"" else pfx)
    ++ "' to the expected prefixes file (" ++ path ++ ")."

/-- The scan of names.cc lines 943-955: walk the registry entries in map
order; remember any key mapped to `pfx`, but stop only at a key that is not
a `no_package:` entry.  `acc` is `other_package_for_prefix`. -/
def scanOtherPackageAux (pfx : String) (m : List (String × String)) (acc : String) : String :=
  match m with
  | [] => acc
  | (k, v) :: rest =>
    if v == pfx then
      if startsWithStr k "no_package:" then scanOtherPackageAux pfx rest k
      else k
    else scanOtherPackageAux pfx rest acc

/-- The value of `other_package_for_prefix` after the scan loop of names.cc lines
943-955. -/
def scanOtherPackage (pfx : String) (m : List (String × String)) : String :=
  scanOtherPackageAux pfx m ""

/-- The tail of `ValidateObjCClassPrefix` (names.cc lines 1002-1023): with a
registry configured, an unregistered declared prefix is a hard error when
`prefixes_must_be_registered`, otherwise only a warning (success). -/
def registrationTail (haveExpectedFile mustBeRegistered : Bool)
    (name key pfx path : String) : Except String Unit :=
  if haveExpectedFile && mustBeRegistered then
    .error (unregisteredError name key pfx path)
  else .ok ()

/-- Embeds `ValidateObjCClassPrefix(file, expected_prefixes_path,
expected_package_prefixes, prefixes_must_be_registered, require_prefixes,
out_error)` (names.cc lines 881-1024). -/
def ValidateObjCClassPrefix (file : FileDescriptor) (expectedPrefixesPath : String)
    (expectedPackagePrefixes : List (String × String))
    (prefixesMustBeRegistered requirePrefixes : Bool) : Except String Unit :=
  let hasPfx := file.objcClassPrefix.isSome
  let haveExpectedFile := !(expectedPrefixesPath == "")
  let pfx := file.objcClassPrefix.getD ""
  let key := fileLookupKey file
  match mapFind expectedPackagePrefixes key with
  | some expected =>
    if hasPfx && expected == pfx then .ok ()
    else .error (expectedMismatchError expected file.package file.name hasPfx pfx)
  | none =>
    if !hasPfx then
      if requirePrefixes then .error (missingRequiredError file.name) else .ok ()
    else if !(pfx == "") && haveExpectedFile then
      let other := scanOtherPackage pfx expectedPackagePrefixes
      if !(other == "") then
        .error (collisionError pfx file.name other key expectedPrefixesPath)
      else registrationTail haveExpectedFile prefixesMustBeRegistered
        file.name key pfx expectedPrefixesPath
    else registrationTail haveExpectedFile prefixesMustBeRegistered
      file.name key pfx expectedPrefixesPath

/-- The validation options read by the batch validator (Options fields of
names.h, loaded in names.cc lines 1028-1044). -/
structure ValidationOptions where
  expectedPrefixesPath : String
  expectedPrefixesSuppressions : List String
  prefixesMustBeRegistered : Bool
  requirePrefixes : Bool

/-- Embeds `LoadExpectedPackagePrefixes` (names.cc lines 869-879): an empty path
loads nothing and succeeds; otherwise the `ParseSimpleFile` outcome decides
(the collector builds the map). -/
def loadExpectedPackagePrefixes (path : String)
    (parse : Except String (List (String × String))) :
    Except String (List (String × String)) :=
  if path == "" then .ok []
  else match parse with
    | .ok entries => .ok (buildMap entries)
    | .error e => .error e

/-- The per-file loop of `ValidateObjCClassPrefixes` (names.cc lines
1070-1090): skip suppressed file names, stop at the first hard error. -/
def validateFilesLoop (files : List FileDescriptor) (opts : ValidationOptions)
    (m : List (String × String)) : Except String Unit :=
  match files with
  | [] => .ok ()
  | f :: rest =>
    if opts.expectedPrefixesSuppressions.contains f.name then
      validateFilesLoop rest opts m
    else
      match ValidateObjCClassPrefix f opts.expectedPrefixesPath m
          opts.prefixesMustBeRegistered opts.requirePrefixes with
      | .ok _ => validateFilesLoop rest opts m
      | .error e => .error e

/-- Embeds `ValidateObjCClassPrefixes(files, generation_options, out_error)`
(names.cc lines 1053-1092); `registryParse` is the `ParseSimpleFile`
outcome for the expected prefixes file. -/
def ValidateObjCClassPrefixes (files : List FileDescriptor)
    (opts : ValidationOptions)
    (registryParse : Except String (List (String × String))) : Except String Unit :=
  if opts.expectedPrefixesPath == "-" then .ok ()
  else match loadExpectedPackagePrefixes opts.expectedPrefixesPath registryParse with
    | .error e => .error e
    | .ok m => validateFilesLoop files opts m

/-! ## Helper lemmas -/

/-- A string whose character list is empty is the empty string. -/
theorem string_eq_empty_of_data {x : String} (h : x.data = []) : x = "" := by
  cases x with
  | mk d => subst h; rfl

/-- Rebuilding a string from its data gives the string back. -/
theorem string_mk_data (x : String) : String.mk x.data = x := by
  cases x with
  | mk d => rfl

/-- Rebuilding a string from appended data lists gives the appended strings. -/
theorem string_mk_append (a b : String) : String.mk (a.data ++ b.data) = a ++ b := by
  cases a with
  | mk d => cases b with
    | mk e => rfl

theorem isPrefixOf_length_le (a b : List Char) (h : a.isPrefixOf b = true) :
    a.length ≤ b.length := by
  induction a generalizing b with
  | nil => simp
  | cons x xs ih =>
    cases b with
    | nil => simp [List.isPrefixOf] at h
    | cons y ys =>
      simp only [List.isPrefixOf, Bool.and_eq_true] at h
      simpa using ih ys h.2

theorem isPrefixOf_append_self (a b : List Char) : a.isPrefixOf (a ++ b) = true := by
  induction a with
  | nil => simp [List.isPrefixOf]
  | cons x xs ih => simp [List.isPrefixOf, ih]

theorem getD_append_self (a b : List Char) (d : Char) :
    (a ++ b).getD a.length d = b.getD 0 d := by
  induction a with
  | nil => simp
  | cons x xs ih => simpa using ih

/-- Step A of `SanitizeNameForObjC` in closed form: the input is kept
exactly when it starts with the prefix, the lengths differ, and the
character right after the prefix is uppercase; otherwise the prefix is
prepended. -/
theorem sanitizeStepA_eq (pre input : List Char) :
    sanitizeStepA pre input =
      if pre.isPrefixOf input && !(input.length == pre.length)
          && asciiIsUpper (input.getD pre.length (Char.ofNat 0)) then input
      else pre ++ input := by
  unfold sanitizeStepA
  cases h1 : pre.isPrefixOf input
  · simp [h1]
  · cases h2 : (input.length == pre.length)
    · cases h3 : asciiIsUpper (input.getD pre.length (Char.ofNat 0))
      · simp [h1, h2, h3]
      · simp [h1, h2, h3]
    · simp [h1, h2]

/-- A string of the shape prefix-plus-nonempty-uppercase-start is kept
unchanged by Step A. -/
theorem sanitizeStepA_keep (pre input : List Char) (h1 : input ≠ [])
    (h2 : asciiIsUpper (input.getD 0 (Char.ofNat 0)) = true) :
    sanitizeStepA pre (pre ++ input) = pre ++ input := by
  rw [sanitizeStepA_eq]
  have hne : (pre ++ input).length ≠ pre.length := by
    simp only [List.length_append]
    intro hc
    exact h1 (List.length_eq_zero.mp (by omega))
  rw [isPrefixOf_append_self, getD_append_self, h2, beq_eq_false_iff_ne.mpr hne]
  simp

/-- Step A is idempotent on inputs that are non-empty and start with an
uppercase letter. -/
theorem sanitizeStepA_idem (pre input : List Char) (h1 : input ≠ [])
    (h2 : asciiIsUpper (input.getD 0 (Char.ofNat 0)) = true) :
    sanitizeStepA pre (sanitizeStepA pre input) = sanitizeStepA pre input := by
  rw [sanitizeStepA_eq pre input]
  cases h : (pre.isPrefixOf input && !(input.length == pre.length)
      && asciiIsUpper (input.getD pre.length (Char.ofNat 0)))
  · rw [if_neg (by simp)]
    exact sanitizeStepA_keep pre input h1 h2
  · rw [if_pos rfl, sanitizeStepA_eq pre input, if_pos h]

/-- With an empty prefix, Step A is the identity. -/
theorem sanitizeStepA_nil (l : List Char) : sanitizeStepA [] l = l := by
  unfold sanitizeStepA
  cases l with
  | nil => rfl
  | cons c rest => cases h : asciiIsUpper c <;> simp [List.isPrefixOf, h]

/-- The function `sanitizeCore` is idempotent whenever the base is non-empty, starts
uppercase, and the first run reported no suffix. -/
theorem sanitizeCore_idem (pre xd sd : List Char) (hx : xd ≠ [])
    (h2 : asciiIsUpper (xd.getD 0 (Char.ofNat 0)) = true)
    (h3 : (sanitizeCore pre xd sd).2 = []) :
    sanitizeCore pre (sanitizeCore pre xd sd).1 sd = ((sanitizeCore pre xd sd).1, []) := by
  have hidem := sanitizeStepA_idem pre xd hx h2
  unfold sanitizeCore at h3 ⊢
  cases hc : isCollisionName (sanitizeStepA pre xd)
  · simp only [hc, Bool.false_eq_true, if_false]
    rw [hidem, hc]
    simp
  · simp only [hc, if_pos rfl] at h3 ⊢
    subst h3
    simp [hidem, hc]
/-! ## Claim theorems -/

/-- Claim C1 (counterexample): contrary to the claim, when the base equals
the prefix (same length, textual overlap) Step A does not leave the base
unchanged: it prepends the prefix, so `Sanitize("ABC", "ABC", "_X")`
returns "ABCABC". -/
theorem sanitize_stepA_same_length_counterexample :
    sanitizeStepAString "ABC" "ABC" = "ABCABC" ∧
    SanitizeNameForObjC "ABC" "ABC" "_X" = ("ABCABC", "") ∧
    ("ABCABC" : String) ≠ "ABC" :=
  ⟨rfl, rfl, by decide⟩

/-- Claim C1 (amended): Step A of `SanitizeNameForObjC` leaves the base
unchanged exactly when the base starts with the prefix, is strictly longer
than the prefix, and the character immediately following the prefix is
uppercase; in every other case — including a base equal to the prefix — it
prepends the prefix verbatim, so for every p, `Sanitize(p, p, s)` turns p
into p ++ p in Step A. -/
theorem sanitize_stepA_characterization :
    (∀ pre input : List Char,
      sanitizeStepA pre input =
        if pre.isPrefixOf input && decide (pre.length < input.length)
            && asciiIsUpper (input.getD pre.length (Char.ofNat 0)) then input
        else pre ++ input) ∧
    (∀ p : List Char, sanitizeStepA p p = p ++ p) := by
  constructor
  · intro pre input
    rw [sanitizeStepA_eq]
    cases h1 : pre.isPrefixOf input
    · simp
    · have hle := isPrefixOf_length_le pre input h1
      have hcond : (!(input.length == pre.length))
          = decide (pre.length < input.length) := by
        by_cases h2 : input.length = pre.length
        · simp [h2]
        · have hlt : pre.length < input.length := by omega
          simp [h2, hlt]
      rw [hcond]
  · intro p
    rw [sanitizeStepA_eq]
    simp

/-- Claim C2 (counterexample): sanitizing "foo" with prefix "ABC" yields
"ABCfoo" with no suffix, but re-sanitizing "ABCfoo" with the same
arguments prepends the prefix again ("ABCfoo" has the prefix followed by a
lowercase letter), yielding "ABCABCfoo"; so Sanitize is not idempotent. -/
theorem sanitize_idempotence_counterexample :
    SanitizeNameForObjC "ABC" "foo" "_X" = ("ABCfoo", "") ∧
    SanitizeNameForObjC "ABC" "ABCfoo" "_X" = ("ABCABCfoo", "") ∧
    ("ABCABCfoo" : String) ≠ "ABCfoo" :=
  ⟨rfl, rfl, by decide⟩

/-- Claim C2 (amended): Sanitize is idempotent on the inputs the generator
feeds it — a non-empty base starting with an uppercase letter — whenever
the first call reported no collision suffix: re-sanitizing its result with
the same prefix and suffix returns the result unchanged with no suffix. -/
theorem sanitize_idempotent_on_legal (p x s : String) (h1 : x ≠ "")
    (h2 : asciiIsUpper (x.data.getD 0 (Char.ofNat 0)) = true)
    (h3 : (SanitizeNameForObjC p x s).2 = "") :
    SanitizeNameForObjC p (SanitizeNameForObjC p x s).1 s
      = ((SanitizeNameForObjC p x s).1, "") := by
  have hx : x.data ≠ [] := fun e => h1 (string_eq_empty_of_data e)
  have h3' : (sanitizeCore p.data x.data s.data).2 = [] := by
    have := congrArg String.data h3
    simpa [SanitizeNameForObjC] using this
  have hcore := sanitizeCore_idem p.data x.data s.data hx h2 h3'
  simp only [SanitizeNameForObjC]
  rw [hcore]

/-- Witness for the amended C2 at p = "ABC", x = "Foo", s = "_X". -/
theorem sanitize_idempotent_on_legal_witness :
    ("Foo" : String) ≠ "" ∧
    asciiIsUpper ("Foo".data.getD 0 (Char.ofNat 0)) = true ∧
    (SanitizeNameForObjC "ABC" "Foo" "_X").2 = "" ∧
    SanitizeNameForObjC "ABC" (SanitizeNameForObjC "ABC" "Foo" "_X").1 "_X"
      = ((SanitizeNameForObjC "ABC" "Foo" "_X").1, "") :=
  ⟨by decide, by decide, by decide,
   sanitize_idempotent_on_legal "ABC" "Foo" "_X" (by decide) (by decide) (by decide)⟩
/-- Claim C3 (counterexample): two files declaring the identical non-empty
explicit prefix "XYZ" with different packages, with a registry configured
but containing no entry for that prefix, pass the batch validator without
any hard error — the validator only checks declared prefixes against the
registry, never against the other files of the batch. -/
theorem validate_batch_no_cross_file_error :
    ValidateObjCClassPrefixes
      [⟨"a.proto", "apple", some "XYZ"⟩, ⟨"b.proto", "banana", some "XYZ"⟩]
      ⟨"expected_prefixes.txt", [], false, false⟩ (.ok []) = .ok () := rfl

/-- Claim C3 (amended): the hard collision error arises when the registry
itself maps another package to the declared prefix: if the registry maps
pkg1 to p, the first file (package pkg1) declares p and passes, and a
second file of a different package pkg2 with no registry entry also
declares p, the batch stops with the hard error naming the second file and
the package pkg1, and telling how to register the override. -/
theorem validate_batch_registry_collision (n1 n2 pkg1 pkg2 p path : String)
    (mustReg reqPfx : Bool)
    (hp : p ≠ "") (hpkg1 : pkg1 ≠ "") (hpkg2 : pkg2 ≠ "")
    (hne : pkg2 ≠ pkg1) (hpath : path ≠ "") (hdash : path ≠ "-")
    (hnp : startsWithStr pkg1 "no_package:" = false) :
    ValidateObjCClassPrefixes
      [⟨n1, pkg1, some p⟩, ⟨n2, pkg2, some p⟩]
      ⟨path, [], mustReg, reqPfx⟩ (.ok [(pkg1, p)])
      = .error (collisionError p n2 pkg1 pkg2 path) := by
  have e1 : (path == "-") = false := beq_eq_false_iff_ne.mpr hdash
  have e2 : (path == "") = false := beq_eq_false_iff_ne.mpr hpath
  have e3 : (pkg1 == "") = false := beq_eq_false_iff_ne.mpr hpkg1
  have e4 : (pkg2 == "") = false := beq_eq_false_iff_ne.mpr hpkg2
  have e5 : (pkg1 == pkg2) = false := beq_eq_false_iff_ne.mpr (fun h => hne h.symm)
  have e6 : (p == "") = false := beq_eq_false_iff_ne.mpr hp
  simp [ValidateObjCClassPrefixes, loadExpectedPackagePrefixes, buildMap,
    mapInsert, validateFilesLoop, ValidateObjCClassPrefix, fileLookupKey,
    mapFind, scanOtherPackage, scanOtherPackageAux, registrationTail,
    e1, e2, e3, e4, e5, e6, hnp]

/-- Witness for the amended C3 on concrete files and registry. -/
theorem validate_batch_registry_collision_witness :
    ("XYZ" : String) ≠ "" ∧ ("apple" : String) ≠ "" ∧ ("banana" : String) ≠ "" ∧
    ("banana" : String) ≠ "apple" ∧ ("expected_prefixes.txt" : String) ≠ "" ∧
    ("expected_prefixes.txt" : String) ≠ "-" ∧
    startsWithStr "apple" "no_package:" = false ∧
    ValidateObjCClassPrefixes
      [⟨"a.proto", "apple", some "XYZ"⟩, ⟨"b.proto", "banana", some "XYZ"⟩]
      ⟨"expected_prefixes.txt", [], false, false⟩ (.ok [("apple", "XYZ")])
      = .error (collisionError "XYZ" "b.proto" "apple" "banana" "expected_prefixes.txt") :=
  ⟨by decide, by decide, by decide, by decide, by decide, by decide, by decide,
   validate_batch_registry_collision "a.proto" "b.proto" "apple" "banana" "XYZ"
     "expected_prefixes.txt" false false (by decide) (by decide) (by decide)
     (by decide) (by decide) (by decide) (by decide)⟩

/-- Claim C10: a file declaring an explicit empty prefix whose lookup key
has no registry entry, with a registry path configured and
prefixes-must-be-registered set, is a hard error instructing registration
(the message quotes the empty prefix as a pair of quotes). -/
theorem validate_empty_prefix_must_register (name pkg path : String)
    (registry : List (String × String)) (reqPfx : Bool)
    (hpath : path ≠ "")
    (hfind : mapFind registry (fileLookupKey ⟨name, pkg, some ""⟩) = none) :
    ValidateObjCClassPrefix ⟨name, pkg, some ""⟩ path registry true reqPfx
      = .error (unregisteredError name (fileLookupKey ⟨name, pkg, some ""⟩) "" path) := by
  have e2 : (path == "") = false := beq_eq_false_iff_ne.mpr hpath
  simp [ValidateObjCClassPrefix, hfind, e2, registrationTail]

/-- Witness for C10 on a concrete file and an empty registry. -/
theorem validate_empty_prefix_must_register_witness :
    ("expected_prefixes.txt" : String) ≠ "" ∧
    mapFind [] (fileLookupKey ⟨"f.proto", "apple", some ""⟩) = none ∧
    ValidateObjCClassPrefix ⟨"f.proto", "apple", some ""⟩ "expected_prefixes.txt" [] true false
      = .error (unregisteredError "f.proto" (fileLookupKey ⟨"f.proto", "apple", some ""⟩)
          "" "expected_prefixes.txt") :=
  ⟨by decide, rfl,
   validate_empty_prefix_must_register "f.proto" "apple" "expected_prefixes.txt" [] false
     (by decide) rfl⟩
/-- Claim C4 (counterexample): with the package-as-default-prefix toggle
on, no explicit option, no mapping entry, no exemption, and no forced
prefix, the prefix derived from package "foo.bar_baz" is "Foo_BarBaz_"
(the camel-cased dot segments joined with underscores), not the claimed
"FooBarBaz_". -/
theorem package_prefix_underscore_counterexample :
    (FileClassPrefix (.ok []) (.ok []) ⟨true, [], "", "", "", []⟩
      ⟨"f.proto", "foo.bar_baz", none⟩).1 = "Foo_BarBaz_" ∧
    (FileClassPrefix (.ok []) (.ok []) ⟨true, [], "", "", "", []⟩
      ⟨"f.proto", "foo.bar_baz", none⟩).1 ≠ "FooBarBaz_" :=
  ⟨rfl, by decide⟩

/-- Claim C4 (amended): in that configuration `FileClassPrefix` returns
"Foo_BarBaz_" — segments "foo" and "bar_baz" are camel-cased to "Foo" and
"BarBaz", joined with "_", with a trailing "_" — whatever the outcomes of
the (never triggered) config-file loads are. -/
theorem package_prefix_value (mp : Except String (List (String × String)))
    (ep : Except String (List String)) :
    (FileClassPrefix mp ep ⟨true, [], "", "", "", []⟩
      ⟨"f.proto", "foo.bar_baz", none⟩).1 = "Foo_BarBaz_" := rfl

/-- Claim C5 (counterexample): for the package-to-prefix mapping the failed
load is not cached: with an empty cached map and a configured path the load
trigger holds, it still holds after a lookup whose load failed, and a later
lookup re-reads the file — its result reflects the newly supplied file
contents. -/
theorem mappings_failed_load_retried :
    mappingsNeedsLoad ⟨false, [], "mappings.txt", "", "", []⟩ = true ∧
    mappingsNeedsLoad (prefixFromMappings (.error "boom")
      ⟨false, [], "mappings.txt", "", "", []⟩ ⟨"f.proto", "apple", none⟩).2 = true ∧
    (prefixFromMappings (.ok [("apple", "PFX")])
      (prefixFromMappings (.error "boom")
        ⟨false, [], "mappings.txt", "", "", []⟩ ⟨"f.proto", "apple", none⟩).2
      ⟨"f.proto", "apple", none⟩).1 = "PFX" := by
  refine ⟨rfl, rfl, rfl⟩

/-- After a triggered load, the exemption state is the input state with
the loaded (or sentinel) exception set. -/
theorem isPackageExempted_load (parse : Except String (List String))
    (st : PrefixModeStorage) (pkg : String) (h : exceptionsNeedLoad st = true) :
    (isPackageExempted parse st pkg).2 =
      { st with exceptions :=
          let exs := match parse with | .ok lines => lines | .error _ => []
          if exs.isEmpty then ["<not a real package>"] else exs } := by
  unfold isPackageExempted
  rw [if_pos h]

/-- With the load trigger off, an exemption lookup leaves the state
untouched. -/
theorem isPackageExempted_noload (parse : Except String (List String))
    (st : PrefixModeStorage) (pkg : String) (h : exceptionsNeedLoad st = false) :
    (isPackageExempted parse st pkg).2 = st := by
  unfold isPackageExempted
  rw [if_neg (by simp [h])]

/-- After a triggered load whose parse failed, the mappings state is the
input state with an empty map. -/
theorem prefixFromMappings_error (e : String) (st : PrefixModeStorage)
    (file : FileDescriptor) (h : mappingsNeedsLoad st = true) :
    (prefixFromMappings (.error e) st file).2 = { st with packageToPrefixMap := [] } := by
  unfold prefixFromMappings
  rw [if_pos h]
  simp [mapFind]

/-- Claim C5 (amended): the caching claim holds for the exemption set — any
load attempt (success, failure, or empty file) leaves a non-empty set (the
sentinel key fills an empty one), the load trigger is off afterwards, and
every later lookup leaves the state untouched — but not for the
package-to-prefix mapping, where a failed load leaves the map empty and
the load trigger on, so the file is re-read by the next lookup. -/
theorem config_map_caching :
    (∀ (parse : Except String (List String)) (st : PrefixModeStorage) (pkg : String),
      exceptionsNeedLoad st = true →
        (isPackageExempted parse st pkg).2.exceptions ≠ [] ∧
        exceptionsNeedLoad (isPackageExempted parse st pkg).2 = false ∧
        ∀ (parse' : Except String (List String)) (pkg' : String),
          (isPackageExempted parse' (isPackageExempted parse st pkg).2 pkg').2
            = (isPackageExempted parse st pkg).2) ∧
    (∀ (e : String) (st : PrefixModeStorage) (file : FileDescriptor),
      mappingsNeedsLoad st = true →
        (prefixFromMappings (.error e) st file).2.packageToPrefixMap = [] ∧
        mappingsNeedsLoad (prefixFromMappings (.error e) st file).2 = true) := by
  constructor
  · intro parse st pkg h
    rw [isPackageExempted_load parse st pkg h]
    have hmain : ∀ exs : List String,
        ({ st with exceptions := if exs.isEmpty then ["<not a real package>"] else exs }
            : PrefixModeStorage).exceptions ≠ [] ∧
        exceptionsNeedLoad
          { st with exceptions := if exs.isEmpty then ["<not a real package>"] else exs }
            = false := by
      intro exs
      cases exs with
      | nil => simp [exceptionsNeedLoad]
      | cons a as => simp [exceptionsNeedLoad]
    refine ⟨(hmain _).1, (hmain _).2, ?_⟩
    intro parse' pkg'
    exact isPackageExempted_noload parse' _ pkg' (hmain _).2
  · intro e st file h
    have hpath : (!(st.packageToPrefixMappingsPath == "")) = true :=
      (Bool.and_eq_true _ _ |>.mp h).2
    rw [prefixFromMappings_error e st file h]
    exact ⟨rfl, by simp [mappingsNeedsLoad, hpath]⟩

/-- Witness for the amended C5: a first exemption lookup with a failing
load caches the sentinel, and a first mappings lookup with a failing load
leaves the cache empty with the trigger still on. -/
theorem config_map_caching_witness :
    exceptionsNeedLoad ⟨false, [], "", "exceptions.txt", "", []⟩ = true ∧
    (isPackageExempted (.error "boom")
      ⟨false, [], "", "exceptions.txt", "", []⟩ "apple").2.exceptions ≠ [] ∧
    mappingsNeedsLoad ⟨false, [], "mappings.txt", "", "", []⟩ = true ∧
    mappingsNeedsLoad (prefixFromMappings (.error "boom")
      ⟨false, [], "mappings.txt", "", "", []⟩ ⟨"f.proto", "apple", none⟩).2 = true :=
  ⟨by decide,
   (config_map_caching.1 (.error "boom") ⟨false, [], "", "exceptions.txt", "", []⟩
     "apple" (by decide)).1,
   by decide,
   (config_map_caching.2 "boom" ⟨false, [], "mappings.txt", "", "", []⟩
     ⟨"f.proto", "apple", none⟩ (by decide)).2⟩

/-- Claim C6: an explicit objc_class_prefix file option — empty or not —
is returned as-is by `FileClassPrefix`, untouched by the mapping file, the
exemption list, the use-package-as-default toggle and the forced literal
prefix, and without touching the cached state. -/
theorem explicit_option_always_wins (mp : Except String (List (String × String)))
    (ep : Except String (List String)) (st : PrefixModeStorage)
    (file : FileDescriptor) (v : String)
    (h : file.objcClassPrefix = some v) :
    FileClassPrefix mp ep st file = (v, st) := by
  simp [FileClassPrefix, h]

/-- Witness for C6: the option wins even against a conflicting mapping
entry, an exempted package, the enabled toggle and a forced prefix. -/
theorem explicit_option_always_wins_witness :
    (FileDescriptor.mk "f.proto" "apple" (some "XYZ")).objcClassPrefix = some "XYZ" ∧
    FileClassPrefix (.error "x") (.error "y")
      ⟨true, [("apple", "ZZZ")], "m.txt", "e.txt", "Forced", ["apple"]⟩
      ⟨"f.proto", "apple", some "XYZ"⟩
      = ("XYZ", ⟨true, [("apple", "ZZZ")], "m.txt", "e.txt", "Forced", ["apple"]⟩) :=
  ⟨rfl,
   explicit_option_always_wins (.error "x") (.error "y")
     ⟨true, [("apple", "ZZZ")], "m.txt", "e.txt", "Forced", ["apple"]⟩
     ⟨"f.proto", "apple", some "XYZ"⟩ "XYZ" rfl⟩
/-- Claim C7: the pinned `UnderscoresToCamelCase` values — "foo_bar" with
capitalization gives "FooBar"; "my_url" without capitalization gives
"myURL" ("url" is in the acronym set); the empty string maps to itself;
"v2_api" with capitalization gives "V2Api". -/
theorem tocamelcase_pinned_values :
    UnderscoresToCamelCase "foo_bar" true = "FooBar" ∧
    UnderscoresToCamelCase "my_url" false = "myURL" ∧
    UnderscoresToCamelCase "" true = "" ∧
    UnderscoresToCamelCase "v2_api" true = "V2Api" :=
  ⟨rfl, rfl, rfl, rfl⟩

/-- Claim C8 (counterexample): `UnderscoresToCamelCase "HTTPServer" true`
returns "Httpserver", not the canonical reassembly of the two segments
"http" and "server" (which is "HTTPServer"): the lowercase letter after
the uppercase run continues the same segment instead of starting a new
one. -/
theorem httpserver_counterexample :
    UnderscoresToCamelCase "HTTPServer" true = "Httpserver" ∧
    reassembleSegmentsString ["http", "server"] true = "HTTPServer" ∧
    UnderscoresToCamelCase "HTTPServer" true
      ≠ reassembleSegmentsString ["http", "server"] true :=
  ⟨rfl, rfl, by decide⟩

/-- Claim C8 (amended): "HTTPServer" is segmented as the single segment
"httpserver" — the uppercase run "HTTPS" merges into one segment and the
following lowercase letters extend that same segment — so the result is
the canonical reassembly of that single segment, "Httpserver"
("httpserver" is not in the acronym set). -/
theorem httpserver_single_segment :
    segmentValues "HTTPServer".data = [[], "httpserver".data] ∧
    UnderscoresToCamelCase "HTTPServer" true
      = reassembleSegmentsString ["", "httpserver"] true ∧
    UnderscoresToCamelCase "HTTPServer" true = "Httpserver" :=
  ⟨rfl, rfl, rfl⟩

/-- Claim C9: with an empty prefix, Step A of `SanitizeNameForObjC` is the
identity, and the whole function returns the input with no suffix, or the
input with the suffix appended and reported when the input collides with
the reserved-C-identifier pattern, the reserved-word set, or the
inherited-method set. -/
theorem sanitize_empty_prefix_identity (x s : String) :
    sanitizeStepAString "" x = x ∧
    SanitizeNameForObjC "" x s
      = (if isCollisionName x.data then (x ++ s, s) else (x, "")) := by
  have hstep : sanitizeStepA "".data x.data = x.data := sanitizeStepA_nil x.data
  constructor
  · show String.mk (sanitizeStepA "".data x.data) = x
    rw [hstep, string_mk_data]
  · show (String.mk (sanitizeCore "".data x.data s.data).1,
        String.mk (sanitizeCore "".data x.data s.data).2) = _
    unfold sanitizeCore
    rw [hstep]
    cases hc : isCollisionName x.data <;>
      simp [hc, string_mk_data, string_mk_append]
end ObjCNames
